import Mathlib

/-!
Verification of the retry / response-checking core of LinguaGacha
(`src/module/Response/ResponseChecker.py` and
`src/module/Engine/Translator/TranslatorTask.py`).

The Python code is shallowly embedded: pure string analysis becomes Lean
functions over `List Char` / `String`, the in-place mutation of
`CacheItem` objects becomes explicit state passing over a list of `Item`
structures, and external collaborators that are not part of the excerpt
(`RuleFilter`, `LanguageFilter`, the placeholder-stripping pattern of
`TextProcessor`, the per-item `post_process`) are taken as parameters.
Helpers of `TextHelper` that the excerpt calls but does not define are
modelled from the spec and marked as such in their doc comments.
-/

namespace LinguaGacha

/-! ## Basic string helpers (Python semantics) -/

/-- Whitespace characters stripped by Python's `str.strip()`: exactly the
code points for which `str.isspace()` holds (ASCII whitespace and control
gaps, next line, no-break space, ogham space mark, the general punctuation
spaces, line and paragraph separators, narrow and medium spaces, and the
ideographic space). -/
def isPySpace (c : Char) : Bool :=
  (0x09 ≤ c.toNat && c.toNat ≤ 0x0d) || c == ' '
    || (0x1c ≤ c.toNat && c.toNat ≤ 0x1f)
    || c.toNat == 0x85 || c.toNat == 0xa0 || c.toNat == 0x1680
    || (0x2000 ≤ c.toNat && c.toNat ≤ 0x200a)
    || c.toNat == 0x2028 || c.toNat == 0x2029 || c.toNat == 0x202f
    || c.toNat == 0x205f || c.toNat == 0x3000

/-- Strip `isPySpace` characters from both ends of a character list. -/
def trimChars (cs : List Char) : List Char :=
  ((cs.dropWhile isPySpace).reverse.dropWhile isPySpace).reverse

/-- Python `s.strip()`. -/
def pyStrip (s : String) : String :=
  ⟨trimChars s.data⟩

/-- The list `needle` occurs as a contiguous block inside `hay`. -/
def containsSub (hay needle : List Char) : Bool :=
  (List.range (hay.length + 1)).any fun i =>
    (hay.drop i).take needle.length == needle

/-- Python `needle in hay` for strings (substring containment). -/
def pyIn (needle hay : String) : Bool :=
  containsSub hay.data needle.data

/-- Python `s.lower()` (ASCII case folding, which is what the inputs here use). -/
def pyLower (s : String) : String :=
  ⟨s.data.map Char.toLower⟩

/-! ## Languages and script classifiers

`BaseLanguage.Enum` is not part of the excerpt; the constructors below are
the six languages the checker treats specially, plus `EN`, which stands for
any language without a script detector ("其他语言暂不检测"). -/

inductive Language where
  | ZH | JA | KO | RU | AR | TH | EN
  deriving DecidableEq, BEq, Repr

/-- CJK ideograph block used by the source (`一-鿿`). -/
def isCJK (c : Char) : Bool :=
  0x4e00 ≤ c.toNat && c.toNat ≤ 0x9fff

/-- Hiragana block (`぀-ゟ`). -/
def isHiragana (c : Char) : Bool :=
  0x3040 ≤ c.toNat && c.toNat ≤ 0x309f

/-- Katakana block (`゠-ヿ`). -/
def isKatakana (c : Char) : Bool :=
  0x30a0 ≤ c.toNat && c.toNat ≤ 0x30ff

/-- Hangeul syllables block (`가-힯`). -/
def isHangeul (c : Char) : Bool :=
  0xac00 ≤ c.toNat && c.toNat ≤ 0xd7af

/-- Cyrillic block (`Ѐ-ӿ`). -/
def isCyrillic (c : Char) : Bool :=
  0x400 ≤ c.toNat && c.toNat ≤ 0x4ff

/-- Arabic block (`؀-ۿ`). -/
def isArabicChar (c : Char) : Bool :=
  0x600 ≤ c.toNat && c.toNat ≤ 0x6ff

/-- Thai block (`฀-๿`). -/
def isThaiChar (c : Char) : Bool :=
  0xe00 ≤ c.toNat && c.toNat ≤ 0xe7f

/-- Modelled from the spec: `TextHelper.CJK.any_cjk` (detects a character of
the CJK ideograph block; same block as the source's residue regex). -/
def any_cjk (s : String) : Bool := s.data.any isCJK

/-- Modelled from the spec: `TextHelper.JA.any_hiragana`. -/
def any_hiragana (s : String) : Bool := s.data.any isHiragana

/-- Modelled from the spec: `TextHelper.JA.any_katakana`. -/
def any_katakana (s : String) : Bool := s.data.any isKatakana

/-- Modelled from the spec: `TextHelper.KO.any_hangeul`. -/
def any_hangeul (s : String) : Bool := s.data.any isHangeul

/-- Modelled from the spec: `TextHelper.RU.any_ru`. -/
def any_ru (s : String) : Bool := s.data.any isCyrillic

/-- Modelled from the spec: `TextHelper.AR.any_ar`. -/
def any_ar (s : String) : Bool := s.data.any isArabicChar

/-- Modelled from the spec: `TextHelper.TH.any_th`. -/
def any_th (s : String) : Bool := s.data.any isThaiChar

/-- Embedding of `ResponseChecker.has_source_language_residue`: does `text` contain a
character of the source language's script block? -/
def has_source_language_residue (text : String) (src_lang : Language) : Bool :=
  match src_lang with
  | Language.ZH => any_cjk text
  | Language.JA => any_hiragana text || any_katakana text
  | Language.KO => any_hangeul text
  | Language.RU => any_ru text
  | Language.AR => any_ar text
  | Language.TH => any_th text
  | _ => false

/-! ## Degradation detection

`ResponseChecker.RE_DEGRADATION` is the regex
`(.` followed by a 1..3 repetition bound, then a backreference repeated at
least 16 more times, compiled with `re.IGNORECASE`.  `re.search` succeeds
iff somewhere in the string a run of 1 to 3 non-newline characters is
followed by at least 16 further case-insensitive copies of itself.

With `re.IGNORECASE`, CPython matches a backreference by comparing both
characters through its Unicode simple-lowercase tables.  Those tables are
environment data this development does not reproduce: the folding function
`f` is a parameter of the model (as the external filter collaborators
are), so every theorem below holds for each folding function, in
particular for the one Python actually uses; concrete witnesses
instantiate `f` on ASCII inputs, where `Char.toLower` agrees with
Python. -/

/-- Predicate `matchesRepeats f block n cs`: `cs` starts with `n`
consecutive copies of `block`, compared case-insensitively through the
folding function `f`. -/
def matchesRepeats (f : Char → Char) (block : List Char) :
    ℕ → List Char → Bool
  | 0, _ => true
  | n + 1, cs =>
      ((cs.take block.length).map f == block.map f)
        && matchesRepeats f block n (cs.drop block.length)

/-- Does `re.search(RE_DEGRADATION, s)` succeed, with `f` the
case-folding function of `re.IGNORECASE`? -/
def hasDegradation (f : Char → Char) (s : String) : Bool :=
  let cs := s.data
  (List.range cs.length).any fun i =>
    [1, 2, 3].any fun L =>
      let block := (cs.drop i).take L
      block.length == L && block.all (fun c => c != '\n')
        && matchesRepeats f block 16 (cs.drop (i + L))

/-! ## Jaccard similarity and the chained comparison -/

/-- Modelled from the spec: `TextHelper.check_similarity_by_jaccard` is not
in the excerpt; per the spec it is intersection-over-union of the two
strings' token sets with character-level tokenization.  This function
decides `jaccard(a, b) > 0.80`, cleared of floating point by cross
multiplication. -/
def jaccardGtThreshold (a b : String) : Bool :=
  let A := a.data.eraseDups
  let B := b.data.eraseDups
  let inter := (A.filter fun c => B.contains c).length
  let union := (A ++ B).eraseDups.length
  4 * union < 5 * inter

/-- Python's `0.80 == True`: booleans are numeric, so this compares the
float `0.8` with `1`.  Both decimals are exact in binary floating point, so
the comparison is modelled exactly, scaled by 100. -/
def pyPointEightyEqTrue : Bool :=
  decide ((80 : ℤ) = 100)

/-- The similarity disjunct of the source is written
`check_similarity_by_jaccard(src, dst) > 0.80 == True`; Python chains the
two comparisons, so it evaluates as
`(jaccard > 0.80) and (0.80 == True)`. -/
def jaccardChainedGt (a b : String) : Bool :=
  jaccardGtThreshold a b && pyPointEightyEqTrue

/-! ## The response checker -/

/-- Enumeration `ResponseChecker.Error`. -/
inductive Error where
  | NONE
  | UNKNOWN
  | FAIL_DATA
  | FAIL_LINE_COUNT
  | LINE_ERROR_KANA
  | LINE_ERROR_HANGEUL
  | LINE_ERROR_FAKE_REPLY
  | LINE_ERROR_EMPTY_LINE
  | LINE_ERROR_SIMILARITY
  | LINE_ERROR_DEGRADATION
  | LINE_ERROR_SOURCE_RESIDUE
  deriving DecidableEq, BEq, Repr

/-- The two `Base.TranslationStatus` values this core uses. -/
inductive TranslationStatus where
  | UNTRANSLATED
  | TRANSLATED
  deriving DecidableEq, BEq, Repr

/-- Type `CacheItem.TextType` is an enumeration whose members never matter here;
it is only threaded through to the placeholder-stripping collaborator. -/
abbrev TextType := ℕ

/-- One `CacheItem`: the translation unit mutated in place by the task. -/
structure Item where
  src : String
  dst : String
  status : TranslationStatus
  retry_count : ℕ
  text_type : TextType
  deriving DecidableEq, BEq, Repr

/-- The configuration fields this core reads. -/
structure Cfg where
  source_language : Language
  target_language : Language
  text_preserve_enable : Bool

/-- External collaborator functions called by the checker but defined
outside the excerpt (`RuleFilter.filter`, `LanguageFilter.filter`, the
placeholder pattern `TextProcessor(...).get_re_sample(custom, text_type)`
whose `rule.sub("", s)` application is abstracted as a string function),
together with `reLower`, the Unicode case-folding function CPython's
`re.IGNORECASE` applies to backreference characters — environment data
not reproduced here, carried as a parameter so the theorems hold for the
folding Python actually performs. -/
structure Collaborators where
  ruleFilter : String → Bool
  languageFilter : String → Language → Bool
  sampleRule : Bool → TextType → Option (String → String)
  reLower : Char → Char

/-- Apply `rule.sub("", s)` when a pattern was returned (`rule is not None`). -/
def applySample (rule : Option (String → String)) (s : String) : String :=
  match rule with
  | none => s
  | some f => f s

/-- Constant `ResponseChecker.RETRY_COUNT_THRESHOLD`. -/
def RETRY_COUNT_THRESHOLD : ℕ := 2

/-- One iteration of the loop body of `ResponseChecker.check_lines`:
classify a single (source, destination) pair. -/
def check_line (cfg : Cfg) (co : Collaborators) (text_type : TextType)
    (src0 dst0 : String) : Error :=
  let src := pyStrip src0
  let dst := pyStrip dst0
  if src != "" && dst == "" then Error.LINE_ERROR_EMPTY_LINE
  else if co.ruleFilter src then Error.NONE
  else if co.languageFilter src cfg.source_language then Error.NONE
  else if !hasDegradation co.reLower src && hasDegradation co.reLower dst then
    Error.LINE_ERROR_DEGRADATION
  else
    let rule := co.sampleRule cfg.text_preserve_enable text_type
    let src := applySample rule src
    let dst := applySample rule dst
    if cfg.source_language == Language.JA && (any_hiragana dst || any_katakana dst) then
      Error.LINE_ERROR_KANA
    else if cfg.source_language == Language.KO && any_hangeul dst then
      Error.LINE_ERROR_HANGEUL
    else if !(cfg.source_language == Language.JA || cfg.source_language == Language.KO)
        && has_source_language_residue dst cfg.source_language then
      Error.LINE_ERROR_SOURCE_RESIDUE
    else if pyIn src dst || pyIn dst src || jaccardChainedGt src dst then
      if cfg.source_language == Language.JA && cfg.target_language == Language.ZH then
        if any_hiragana dst || any_katakana dst then Error.LINE_ERROR_SIMILARITY
        else Error.NONE
      else if cfg.source_language == Language.KO && cfg.target_language == Language.ZH then
        if any_hangeul dst then Error.LINE_ERROR_SIMILARITY
        else Error.NONE
      else Error.LINE_ERROR_SIMILARITY
    else Error.NONE

/-- Embedding of `ResponseChecker.check_lines` (`zip` truncates to the shorter list,
as in Python). -/
def check_lines (cfg : Cfg) (co : Collaborators) (srcs dsts : List String)
    (text_type : TextType) : List Error :=
  List.zipWith (check_line cfg co text_type) srcs dsts

/-- The single-unit retry shortcut condition of `ResponseChecker.check`:
`len(self.items) == 1 and self.items[0].get_retry_count() >= 2`. -/
def singleRetryShortcut (items : List Item) : Bool :=
  match items with
  | [it] => RETRY_COUNT_THRESHOLD ≤ it.retry_count
  | _ => false

/-- Embedding of `ResponseChecker.check`. -/
def check (cfg : Cfg) (co : Collaborators) (items : List Item)
    (srcs dsts : List String) (text_type : TextType) : List Error :=
  if dsts.length == 0 || dsts.all (fun v => v == "") then
    List.replicate srcs.length Error.FAIL_DATA
  else if singleRetryShortcut items then
    List.replicate srcs.length Error.NONE
  else if srcs.length != dsts.length then
    List.replicate srcs.length Error.FAIL_LINE_COUNT
  else
    let checks := check_lines cfg co srcs dsts text_type
    if checks.any fun v => v != Error.NONE then checks
    else List.replicate srcs.length Error.NONE

/-! ## TranslatorTask: the retry orchestrator

`TranslatorTask.request` mutates the `CacheItem`s and returns a result
dictionary; the embedding passes the item list explicitly and returns the
updated list together with the disposition.  The prompt-building,
temperature and logging steps touch no state the verified claims mention
and the LLM round-trip is external, so one attempt's observable input is
the `Response` tuple produced by `TaskRequester.request` / decoded by
`ResponseDecoder`. -/

/-- The result dictionary of `request` / `start`. -/
structure Disposition where
  row_count : ℕ
  input_tokens : ℕ
  output_tokens : ℕ
  deriving DecidableEq, BEq, Repr

/-- One attempt's external input: the transport skip flag, the decoded
destination lines, and the token counts. -/
structure Response where
  skip : Bool
  dsts : List String
  input_tokens : ℕ
  output_tokens : ℕ

def MAX_RETRY : ℕ := 3

/-- The `for retry_count in range(MAX_RETRY)` loop of `TranslatorTask.start`,
with `fuel` iterations remaining and `k` the current retry index.
`attempts k` is the disposition that attempt `k` would return. -/
def startLoop (attempts : ℕ → Disposition) : ℕ → ℕ → Disposition
  | 0, _ => ⟨0, 0, 0⟩
  | fuel + 1, k =>
      let result := attempts k
      if 0 < result.row_count then result else startLoop attempts fuel (k + 1)

/-- Embedding of `TranslatorTask.start`. -/
def start (attempts : ℕ → Disposition) : Disposition :=
  startLoop attempts MAX_RETRY 0

/-- The cache-update loop of `request` (lines 241-252): iterate over
`zip(items, processors)`, pop each item's share of the destination and
check lists, and accept the item when its checks all passed or acceptance
is forced.  Each triple carries the item, `len(processor.srcs)` and the
processor's `post_process` (an external collaborator, so a parameter;
its first-name component is not referenced by any claim and is omitted).
Returns the updated items and `updated_count`. -/
def updateItems (force : Bool) :
    List (Item × ℕ × (List String → String)) → List String → List Error →
    List Item × ℕ
  | [], _, _ => ([], 0)
  | (it, n, post) :: rest, dsts, checks =>
      let dsts_ex := dsts.take n
      let checks_ex := checks.take n
      let r := updateItems force rest (dsts.drop n) (checks.drop n)
      if checks_ex.all (fun v => v == Error.NONE) || force then
        ({ it with dst := post dsts_ex, status := TranslationStatus.TRANSLATED } :: r.1,
         r.2 + 1)
      else (it :: r.1, r.2)

/-- Python `self.items[0].set_retry_count(self.items[0].get_retry_count() + 1)`. -/
def incr_retry : List Item → List Item
  | [] => []
  | it :: rest => { it with retry_count := it.retry_count + 1 } :: rest

/-- Python `self.items[0].get_text_type()`. -/
def headTextType : List Item → TextType
  | [] => 0
  | it :: _ => it.text_type

/-- Embedding of `TranslatorTask.request`.  `procSrcs` holds each processor's `srcs`
after `pre_process`, and `posts` each processor's `post_process`. -/
def request (cfg : Cfg) (co : Collaborators) (items : List Item)
    (procSrcs : List (List String)) (posts : List (List String → String))
    (resp : Response) (retry_count : ℕ) : List Item × Disposition :=
  let srcs := procSrcs.flatten
  if srcs.length == 0 then
    (items.map fun it => { it with dst := it.src, status := TranslationStatus.TRANSLATED },
     ⟨items.length, 0, 0⟩)
  else if resp.skip then (items, ⟨0, 0, 0⟩)
  else
    let dsts := resp.dsts
    let checks := check cfg co items srcs dsts (headTextType items)
    -- the source guard is `any(...) != None and len(self.items) == 1`:
    -- `any(...)` is a bool, never `None`, so the first conjunct always holds
    let items := if (some (checks.any fun v => v != Error.NONE)).isSome
        && items.length == 1 then incr_retry items else items
    let force_accept := retry_count == 2
    if (checks.any fun v => v == Error.NONE) || force_accept then
      let dsts_cp := dsts ++ List.replicate (srcs.length - dsts.length) ""
      let checks_cp := checks ++ List.replicate (srcs.length - checks.length) Error.NONE
      let zipped := items.zip ((procSrcs.map List.length).zip posts)
      let (upd, cnt) := updateItems force_accept zipped dsts_cp checks_cp
      let items2 := upd ++ items.drop zipped.length
      if 0 < cnt then (items2, ⟨cnt, resp.input_tokens, resp.output_tokens⟩)
      else (items2, ⟨0, 0, 0⟩)
    else (items, ⟨0, 0, 0⟩)

/-! ## Glossary merge -/

/-- One glossary record (src, dst, info). -/
structure GEntry where
  src : String
  dst : String
  info : String
  deriving DecidableEq, BEq, Repr

/-- The configuration flags read by `merge_glossary`. -/
structure MergeCfg where
  glossary_enable : Bool
  auto_glossary_enable : Bool

/-- Punctuation characters for the modelled `split_by_punctuation`. -/
def punctuationChars : List Char :=
  ['.', ',', ';', ':', '!', '?', '(', ')', '[', ']',
   '"', '/', '\\', '|', '-', '·', '、', '。', '，', '！',
   '？', '；', '：', '（', '）', '「', '」', '『', '』', '…']

def isPunct (c : Char) : Bool := punctuationChars.contains c

/-- Helper for `maximalRuns`: `cur` is the current run, reversed. -/
def maximalRunsAux (p : Char → Bool) : List Char → List Char → List (List Char)
  | [], cur => if cur.isEmpty then [] else [cur.reverse]
  | c :: cs, cur =>
      if p c then maximalRunsAux p cs (c :: cur)
      else if cur.isEmpty then maximalRunsAux p cs []
      else cur.reverse :: maximalRunsAux p cs []

/-- Maximal runs of characters satisfying `p` (what `re.findall` returns
for a character-class-plus pattern). -/
def maximalRuns (p : Char → Bool) (cs : List Char) : List (List Char) :=
  maximalRunsAux p cs []

/-- Modelled from the spec: `TextHelper.split_by_punctuation` is not in the
excerpt; it splits a string on punctuation (and, with `split_by_space`,
whitespace), keeping the non-separator segments. -/
def split_by_punctuation (s : String) (split_by_space : Bool) : List String :=
  (maximalRuns (fun c => !(isPunct c || (split_by_space && isPySpace c))) s.data).map
    fun cs => (⟨cs⟩ : String)

/-- The relevance filter of `merge_glossary`:
`any(x in info.lower() for x in ("男", "女", "male", "female"))`. -/
def genderOk (info : String) : Bool :=
  ["男", "女", "male", "female"].any fun x => pyIn x (pyLower info)

/-- The mutable state of the merge loop: the `keys` set, the glossary
`data` list and the `changed` flag. -/
structure MergeState where
  keys : List String
  data : List GEntry
  changed : Bool
  deriving DecidableEq, BEq, Repr

/-- The aligned `(src, dst, info)` pairs one candidate contributes
(lines 294-310): trim the fields, drop the candidate unless its info
carries a gender token, split source and destination on punctuation, and
fall back to the whole strings when the split lengths disagree. -/
def pairsOf (item : GEntry) : List (String × String × String) :=
  let src := pyStrip item.src
  let dst := pyStrip item.dst
  let info := pyStrip item.info
  if !genderOk info then []
  else
    let srcs := split_by_punctuation src true
    let dsts := split_by_punctuation dst true
    let (srcs, dsts) :=
      if srcs.length != dsts.length then ([src], [dst]) else (srcs, dsts)
    (srcs.zip dsts).map fun sd => (sd.1, sd.2, info)

/-- Python `if src == dst or src == "" or dst == "": continue` of the inner merge
loop, on the trimmed pair. -/
def skipPair (p : String × String × String) : Bool :=
  pyStrip p.1 == pyStrip p.2.1 || pyStrip p.1 == "" || pyStrip p.2.1 == ""

/-- The inner loop body (lines 310-322): skip empty or identical pairs,
then append the pair unless its source term is already a key. -/
def mergeStep (st : MergeState) (p : String × String × String) : MergeState :=
  if skipPair p then st
  else if st.keys.contains (pyStrip p.1) then st
  else { keys := pyStrip p.1 :: st.keys,
         data := st.data ++ [⟨pyStrip p.1, pyStrip p.2.1, p.2.2⟩],
         changed := true }

/-- Process one candidate of `glossary_list`. -/
def mergeOne (st : MergeState) (item : GEntry) : MergeState :=
  (pairsOf item).foldl mergeStep st

def GLOSSARY_SAVE_INTERVAL : ℚ := 15

/-- Embedding of `TranslatorTask.merge_glossary`.  The wall clock (`time.time()`) is a
parameter `now`; the two calls inside the function are close enough
together that one value models both.  Returns the updated glossary data,
the returned timestamp, and whether a persisted write happened. -/
def merge_glossary (cfg : MergeCfg) (data : List GEntry)
    (glossary_list : List GEntry) (last_save_time now : ℚ) :
    List GEntry × ℚ × Bool :=
  if cfg.glossary_enable == false then (data, last_save_time, false)
  else if cfg.auto_glossary_enable == false then (data, last_save_time, false)
  else
    let keys := data.map fun item => item.src
    let st := glossary_list.foldl mergeOne
      { keys := keys, data := data, changed := false }
    if st.changed && decide (GLOSSARY_SAVE_INTERVAL < now - last_save_time) then
      (st.data, now, true)
    else
      (st.data, last_save_time, false)

/-! ## Residue word extraction -/

/-- Result of `re.findall` of a character-class-plus pattern, as strings. -/
def runsStr (p : Char → Bool) (s : String) : List String :=
  (maximalRuns p s.data).map fun cs => (⟨cs⟩ : String)

/-- The per-destination `matches` list of `extract_residue_words`: one
branch per source language, each with its own block pattern; for Japanese
the hiragana matches of the destination are listed before its katakana
matches, exactly as in the source. -/
def residueMatches (src_lang : Language) (dst : String) : List String :=
  match src_lang with
  | Language.ZH => runsStr isCJK dst
  | Language.JA => runsStr isHiragana dst ++ runsStr isKatakana dst
  | Language.KO => runsStr isHangeul dst
  | Language.RU => runsStr isCyrillic dst
  | Language.AR => runsStr isArabicChar dst
  | Language.TH => runsStr isThaiChar dst
  | _ => []

/-- Python `if word not in seen: residue_words.append(word); seen.add(word)`.
State is `(residue_words, seen)`. -/
def addWord (st : List String × List String) (w : String) :
    List String × List String :=
  if st.2.contains w then st
  else (st.1 ++ [w], w :: st.2)

/-- Embedding of `TranslatorTask.extract_residue_words`. -/
def extract_residue_words (src_lang : Language) (dsts : List String) :
    List String :=
  (dsts.foldl (fun st dst => (residueMatches src_lang dst).foldl addWord st)
    ([], [])).1

/-- De-duplication keeping the first occurrence of each word. -/
def dedupFirstSeen (ws : List String) : List String :=
  ws.foldl (fun acc w => if acc.contains w then acc else acc ++ [w]) []

/-- The source-script predicate the spec (4.2(h)) associates to each
language; `none` for languages without a defined block. -/
def scriptPredOf : Language → Option (Char → Bool)
  | Language.ZH => some isCJK
  | Language.JA => some fun c => isHiragana c || isKatakana c
  | Language.KO => some isHangeul
  | Language.RU => some isCyrillic
  | Language.AR => some isArabicChar
  | Language.TH => some isThaiChar
  | _ => none

/-- The claim's (spec 4.3) description of `extract_residue_words`, stated
in its own words for comparison: the de-duplicated, first-seen-order list
of maximal runs of source-script characters, using one script predicate
per language, and empty when the language has no script block. -/
def spec_residue_words (src_lang : Language) (dsts : List String) :
    List String :=
  match scriptPredOf src_lang with
  | none => []
  | some p => dedupFirstSeen (dsts.flatMap fun d => runsStr p d)

/-! ## Auxiliary definitions used by the theorems -/

/-- Split a list into consecutive slices of the given lengths (how the
update loop of `request` distributes the destination lines over the
items). -/
def takeSlices {α : Type} : List ℕ → List α → List (List α)
  | [], _ => []
  | n :: ns, xs => xs.take n :: takeSlices ns (xs.drop n)

/-- Collaborator instance where no rule-filter, language-filter or
placeholder pattern applies ("not caught by any earlier rule"), with the
ASCII case folding — which agrees with Python's on the ASCII-only inputs
this instance is evaluated at. -/
def coNone : Collaborators :=
  { ruleFilter := fun _ => false
    languageFilter := fun _ _ => false
    sampleRule := fun _ _ => none
    reLower := Char.toLower }

/-- An English-to-English configuration: no script-specific rule fires. -/
def cfgEN : Cfg :=
  { source_language := Language.EN
    target_language := Language.EN
    text_preserve_enable := false }

/-- A case folding that lowercases the Cyrillic capital range — a fragment
of the Unicode tables Python's `re.IGNORECASE` uses, on which the ASCII
folding is the identity. -/
def cyrFold (c : Char) : Char :=
  if 0x410 ≤ c.toNat && c.toNat ≤ 0x42f then Char.ofNat (c.toNat + 32)
  else Char.toLower c

/-! # Theorems for the claims -/

/-! ## C4: the retry loop of `start` -/

/-- Claim C4: `start` performs at most 3 attempts (its result only depends on
the dispositions of attempts 0, 1, 2) and returns the disposition of the
first attempt whose accepted-row count is positive; if all three attempts
yield zero accepted rows it returns the zero disposition rather than an
error, so the caller always receives a disposition. -/
theorem start_attempts_spec (attempts attempts' : ℕ → Disposition)
    (hagree : ∀ j, j < 3 → attempts' j = attempts j) :
    (∀ i, i < 3 → 0 < (attempts i).row_count →
      (∀ j, j < i → (attempts j).row_count = 0) → start attempts = attempts i)
    ∧ ((∀ i, i < 3 → (attempts i).row_count = 0) →
        start attempts = ⟨0, 0, 0⟩)
    ∧ start attempts' = start attempts := by
  refine ⟨?_, ?_, ?_⟩
  · intro i hi hpos hzero
    interval_cases i
    · simp [start, MAX_RETRY, startLoop, hpos]
    · have h0 := hzero 0 (by omega)
      simp [start, MAX_RETRY, startLoop, h0, hpos]
    · have h0 := hzero 0 (by omega)
      have h1 := hzero 1 (by omega)
      simp [start, MAX_RETRY, startLoop, h0, h1, hpos]
  · intro h
    have h0 := h 0 (by omega)
    have h1 := h 1 (by omega)
    have h2 := h 2 (by omega)
    simp [start, MAX_RETRY, startLoop, h0, h1, h2]
  · have h0 := hagree 0 (by omega)
    have h1 := hagree 1 (by omega)
    have h2 := hagree 2 (by omega)
    simp [start, MAX_RETRY, startLoop, h0, h1, h2]

/-- Witness for C4 at the all-zero attempt sequence. -/
theorem start_attempts_spec_witness :
    start (fun _ => ⟨0, 0, 0⟩) = ⟨0, 0, 0⟩ :=
  (start_attempts_spec (fun _ => ⟨0, 0, 0⟩) (fun _ => ⟨0, 0, 0⟩)
    (fun _ _ => rfl)).2.1 (fun _ _ => rfl)

/-! ## C5: the single-unit retry shortcut of `check` -/

/-- Claim C5: when the destination list is non-empty and not all of its
entries are empty, a batch holding exactly one item with retry count at
least `RETRY_COUNT_THRESHOLD` makes `check` return `NONE` for every source
line — for arbitrary `srcs` and `dsts`, so neither the line-count check
nor any per-line analysis is consulted. -/
theorem check_single_item_retry_shortcut (cfg : Cfg) (co : Collaborators)
    (it : Item) (srcs dsts : List String) (text_type : TextType)
    (hne : dsts ≠ []) (hnotall : ¬ ∀ v ∈ dsts, v = "")
    (hretry : RETRY_COUNT_THRESHOLD ≤ it.retry_count) :
    check cfg co [it] srcs dsts text_type
      = List.replicate srcs.length Error.NONE := by
  have h2 : dsts.all (fun v => v == "") = false := by
    by_contra h
    rw [Bool.not_eq_false, List.all_eq_true] at h
    exact hnotall fun v hv => by simpa using h v hv
  simp [check, h2, hne, singleRetryShortcut, hretry]

/-- Witness for C5: one item with retry count 2, two source lines but a
single destination line (a line-count mismatch that is never examined). -/
theorem check_single_item_retry_shortcut_witness :
    (["x"] : List String) ≠ [] ∧ ¬(∀ v ∈ (["x"] : List String), v = "")
    ∧ RETRY_COUNT_THRESHOLD ≤ 2
    ∧ check cfgEN coNone [⟨"a", "", TranslationStatus.UNTRANSLATED, 2, 0⟩]
        ["s1", "s2"] ["x"] 0 = List.replicate 2 Error.NONE :=
  ⟨by simp, by simp, by decide,
    check_single_item_retry_shortcut cfgEN coNone
      ⟨"a", "", TranslationStatus.UNTRANSLATED, 2, 0⟩ ["s1", "s2"] ["x"] 0
      (by simp) (by simp) (by decide)⟩

/-! ## C3: the similarity disjunct -/

/-- Claim C3 fails on the code: the similarity disjunct is written
`... > 0.80 == True`, which Python chains into
`(jaccard > 0.80) and (0.80 == True)` — always false.  At source `"abc"`,
destination `"cab"` (token-set Jaccard 1.0 > 0.80, no containment either
way, no earlier rule fires under `coNone`/`cfgEN`) the claim requires
`SIMILARITY`, but `check_line` returns `NONE`. -/
theorem check_line_jaccard_dead_code :
    jaccardGtThreshold "abc" "cab" = true
    ∧ pyIn "abc" "cab" = false
    ∧ pyIn "cab" "abc" = false
    ∧ jaccardChainedGt "abc" "cab" = false
    ∧ check_line cfgEN coNone 0 "abc" "cab" = Error.NONE := by decide

/-! ## C1: the retry-count increment -/

/-- Claim C1 fails on the code: the increment guard is
`any(v != NONE for v in checks) != None and len(self.items) == 1`, and a
bool is never `None`, so every non-skip attempt of a single-unit batch
increments the retry count.  Here the response passes validation entirely
(every check is `NONE`), yet the item's retry count goes from 0 to 1. -/
theorem request_increments_retry_on_success :
    check cfgEN coNone [⟨"abc", "", TranslationStatus.UNTRANSLATED, 0, 0⟩]
      ["abc"] ["xyz"] 0 = [Error.NONE]
    ∧ (request cfgEN coNone [⟨"abc", "", TranslationStatus.UNTRANSLATED, 0, 0⟩]
        [["abc"]] [fun _ => "xyz"] ⟨false, ["xyz"], 5, 7⟩ 0).1.map
          (fun it => it.retry_count) = [1] := by decide

/-! ## C8: the degradation rule -/

/-- The folding parameter is load-bearing: a 17-character mixed-case
Cyrillic repetition is a degradation pattern under a folding that
lowercases Cyrillic — as `RE_DEGRADATION` with `re.IGNORECASE` matches
it — but not under the ASCII-only folding.  Only instantiating `reLower`
with the folding Python performs makes `hasDegradation` coincide with the
program's guard on such inputs. -/
theorem hasDegradation_folding_sensitive :
    hasDegradation cyrFold "яЯЯяяЯяЯЯяЯяяЯЯяЯ" = true
    ∧ hasDegradation Char.toLower "яЯЯяяЯяЯЯяЯяяЯЯяЯ" = false := by decide

/-- Claim C8: for a line pair not caught by an earlier rule (the rule and
language filters reject the source), a destination containing a 1-3
character run followed by at least 16 further copies of itself — under the
case folding `co.reLower` that `re.IGNORECASE` uses — while the source
contains no such pattern under the same folding, is classified
`DEGRADATION`.  The folding is quantified, so the statement holds in
particular for the Unicode lowercasing Python performs, where the two
`hasDegradation` hypotheses are exactly the program's guard. -/
theorem check_line_degradation_rule (cfg : Cfg) (co : Collaborators)
    (text_type : TextType) (src dst : String)
    (hrule : co.ruleFilter (pyStrip src) = false)
    (hlang : co.languageFilter (pyStrip src) cfg.source_language = false)
    (hsrc : hasDegradation co.reLower (pyStrip src) = false)
    (hdst : hasDegradation co.reLower (pyStrip dst) = true) :
    check_line cfg co text_type src dst = Error.LINE_ERROR_DEGRADATION := by
  have hne : ¬ pyStrip dst = "" := by
    intro h
    rw [h] at hdst
    have hempty : hasDegradation co.reLower "" = false := rfl
    rw [hempty] at hdst
    exact Bool.false_ne_true hdst
  simp [check_line, hrule, hlang, hsrc, hdst, hne]

/-- Witness for C8: destination of 17 consecutive `a`s, with the ASCII
folding (which agrees with Python's folding on these ASCII inputs). -/
theorem check_line_degradation_rule_witness :
    coNone.ruleFilter (pyStrip "hello") = false
    ∧ hasDegradation coNone.reLower (pyStrip "hello") = false
    ∧ hasDegradation coNone.reLower (pyStrip "aaaaaaaaaaaaaaaaa") = true
    ∧ check_line cfgEN coNone 0 "hello" "aaaaaaaaaaaaaaaaa"
        = Error.LINE_ERROR_DEGRADATION :=
  ⟨by decide, by decide, by decide,
    check_line_degradation_rule cfgEN coNone 0 "hello" "aaaaaaaaaaaaaaaaa"
      (by decide) (by decide) (by decide) (by decide)⟩

/-! ## C10: the empty-source shortcut of `request` -/

/-- Claim C10: when pre-processing yields no source strings, `request`
returns before the LLM call and validation (its result does not depend on
the response at all): every unit's destination becomes its own source,
every unit is marked `TRANSLATED`, and the disposition is
`(number of units, 0, 0)`. -/
theorem request_empty_sources_shortcut (cfg : Cfg) (co : Collaborators)
    (items : List Item) (procSrcs : List (List String))
    (posts : List (List String → String)) (resp : Response) (retry_count : ℕ)
    (h : procSrcs.flatten = []) :
    request cfg co items procSrcs posts resp retry_count
      = (items.map fun it =>
          { it with dst := it.src, status := TranslationStatus.TRANSLATED },
         ⟨items.length, 0, 0⟩) := by
  simp [request, h]

/-- Witness for C10: two processors that both produced no source lines. -/
theorem request_empty_sources_shortcut_witness :
    ([[], []] : List (List String)).flatten = []
    ∧ request cfgEN coNone [⟨"a", "", TranslationStatus.UNTRANSLATED, 0, 0⟩]
        [[], []] [] ⟨false, ["zz"], 3, 4⟩ 1
      = ([⟨"a", "a", TranslationStatus.TRANSLATED, 0, 0⟩], ⟨1, 0, 0⟩) :=
  ⟨rfl,
    (request_empty_sources_shortcut cfgEN coNone
      [⟨"a", "", TranslationStatus.UNTRANSLATED, 0, 0⟩] [[], []] []
      ⟨false, ["zz"], 3, 4⟩ 1 rfl).trans (by decide)⟩

/-! ## C2: forced acceptance on the last attempt -/

theorem incr_retry_length (l : List Item) : (incr_retry l).length = l.length := by
  cases l <;> simp [incr_retry]

/-- With `force = true` the update loop accepts every zipped item: the
count equals the number of items, every item comes out `TRANSLATED`, and
each destination is its processor's `post_process` applied to that item's
slice of the destination lines. -/
theorem updateItems_force_accept :
    ∀ (items1 : List Item) (lens : List ℕ) (posts : List (List String → String))
      (dsts : List String) (checks : List Error),
      lens.length = items1.length → posts.length = items1.length →
      (updateItems true (items1.zip (lens.zip posts)) dsts checks).2 = items1.length
      ∧ ((updateItems true (items1.zip (lens.zip posts)) dsts checks).1.map
          fun it => it.status)
        = List.replicate items1.length TranslationStatus.TRANSLATED
      ∧ ((updateItems true (items1.zip (lens.zip posts)) dsts checks).1.map
          fun it => it.dst)
        = (posts.zip (takeSlices lens dsts)).map fun pr => pr.1 pr.2 := by
  intro items1
  induction items1 with
  | nil =>
      intro lens posts dsts checks h1 h2
      have hp : posts = [] := List.length_eq_zero.mp h2
      subst hp
      simp [updateItems]
  | cons it rest ih =>
      intro lens posts dsts checks h1 h2
      cases lens with
      | nil => simp at h1
      | cons n ns =>
          cases posts with
          | nil => simp at h2
          | cons post ps =>
              obtain ⟨ha, hb, hc⟩ := ih ns ps (dsts.drop n) (checks.drop n)
                (by simpa using h1) (by simpa using h2)
              simp only [List.zip] at ha hb hc
              simp [updateItems, takeSlices, ha, hb, hc, List.replicate_succ, List.zip]

/-- Claim C2: on the third attempt (`retry_count = 2`) a non-skip response is
force-accepted whatever the validation outcome: the disposition reports an
accepted-row count equal to the number of units together with the
response's token counts, every unit is marked `TRANSLATED`, and each
unit's destination is its post-processed slice of the decoded (padded)
destination lines. -/
theorem request_force_accepts (cfg : Cfg) (co : Collaborators)
    (items : List Item) (procSrcs : List (List String))
    (posts : List (List String → String)) (resp : Response)
    (hskip : resp.skip = false) (hsrcs : procSrcs.flatten ≠ [])
    (hlen : procSrcs.length = items.length) (hlen' : posts.length = items.length) :
    ((request cfg co items procSrcs posts resp 2).2
      = ⟨items.length, resp.input_tokens, resp.output_tokens⟩)
    ∧ (((request cfg co items procSrcs posts resp 2).1.map fun it => it.status)
      = List.replicate items.length TranslationStatus.TRANSLATED)
    ∧ (((request cfg co items procSrcs posts resp 2).1.map fun it => it.dst)
      = (posts.zip (takeSlices (procSrcs.map List.length)
          (resp.dsts ++ List.replicate (procSrcs.flatten.length - resp.dsts.length)
            ""))).map fun pr => pr.1 pr.2) := by
  have hflat : procSrcs.flatten.length ≠ 0 := by
    intro h
    exact hsrcs (List.length_eq_zero.mp h)
  have c1 : (procSrcs.flatten.length == 0) = false := by
    simpa using hflat
  have hpos : 0 < items.length := by
    rcases Nat.eq_zero_or_pos items.length with h | h
    · exfalso
      apply hsrcs
      have hnil : procSrcs = [] := List.length_eq_zero.mp (hlen.trans h)
      simp [hnil]
    · exact h
  have hsum : ¬(List.map List.length procSrcs).sum = 0 := by
    simpa [List.length_flatten] using hflat
  have hne0 : ¬(items.length = 0) := Nat.pos_iff_ne_zero.mp hpos
  by_cases hone : (items.length == 1) = true
  · obtain ⟨ha, hb, hc⟩ := updateItems_force_accept (incr_retry items)
      (procSrcs.map List.length) posts
      (resp.dsts ++ List.replicate (procSrcs.flatten.length - resp.dsts.length) "")
      (check cfg co items procSrcs.flatten resp.dsts (headTextType items)
        ++ List.replicate (procSrcs.flatten.length
            - (check cfg co items procSrcs.flatten resp.dsts
                (headTextType items)).length) Error.NONE)
      (by simp [hlen, incr_retry_length]) (by simp [hlen', incr_retry_length])
    have hdrop : List.drop items.length (incr_retry items) = [] := by
      rw [← incr_retry_length items]
      exact List.drop_length _
    have hmin : items.length ⊓ (procSrcs.length ⊓ posts.length) = items.length := by
      simp [hlen, hlen']
    simp only [List.length_flatten] at ha hb hc
    simp [request, hskip, hone, hsum, ha, hb, hc, incr_retry_length, hmin, hdrop,
      hne0, hpos]
  · obtain ⟨ha, hb, hc⟩ := updateItems_force_accept items
      (procSrcs.map List.length) posts
      (resp.dsts ++ List.replicate (procSrcs.flatten.length - resp.dsts.length) "")
      (check cfg co items procSrcs.flatten resp.dsts (headTextType items)
        ++ List.replicate (procSrcs.flatten.length
            - (check cfg co items procSrcs.flatten resp.dsts
                (headTextType items)).length) Error.NONE)
      (by simp [hlen]) (by simp [hlen'])
    have hmin : items.length ⊓ (procSrcs.length ⊓ posts.length) = items.length := by
      simp [hlen, hlen']
    simp only [List.length_flatten] at ha hb hc
    simp [request, hskip, hone, hsum, ha, hb, hc, hmin, List.drop_length, hne0, hpos]

/-- Witness for C2: two units, the second line failing validation
(empty destination), both force-accepted with the response's tokens. -/
theorem request_force_accepts_witness :
    (([["s1"], ["s2"]] : List (List String)).flatten ≠ []
      ∧ ([["s1"], ["s2"]] : List (List String)).length = 2
      ∧ (request cfgEN coNone
          [⟨"s1", "", TranslationStatus.UNTRANSLATED, 0, 0⟩,
           ⟨"s2", "", TranslationStatus.UNTRANSLATED, 0, 0⟩]
          [["s1"], ["s2"]] [fun l => String.join l, fun l => String.join l]
          ⟨false, ["x", ""], 9, 11⟩ 2).2 = ⟨2, 9, 11⟩) :=
  ⟨by simp, rfl,
    (request_force_accepts cfgEN coNone
      [⟨"s1", "", TranslationStatus.UNTRANSLATED, 0, 0⟩,
       ⟨"s2", "", TranslationStatus.UNTRANSLATED, 0, 0⟩]
      [["s1"], ["s2"]] [fun l => String.join l, fun l => String.join l]
      ⟨false, ["x", ""], 9, 11⟩ rfl (by simp) rfl rfl).1⟩

/-! ## C6 / C7: glossary merge lemmas -/

/-- A merge step either skips the pair, skips a known key, or appends. -/
theorem mergeStep_cases (st : MergeState) (p : String × String × String) :
    (skipPair p = true ∧ mergeStep st p = st)
    ∨ (skipPair p = false ∧ st.keys.contains (pyStrip p.1) = true
        ∧ mergeStep st p = st)
    ∨ (skipPair p = false ∧ st.keys.contains (pyStrip p.1) = false
        ∧ mergeStep st p
          = { keys := pyStrip p.1 :: st.keys,
              data := st.data ++ [⟨pyStrip p.1, pyStrip p.2.1, p.2.2⟩],
              changed := true }) := by
  by_cases h1 : skipPair p = true
  · refine Or.inl ⟨h1, ?_⟩
    unfold mergeStep
    rw [h1]
    simp
  · rw [Bool.not_eq_true] at h1
    by_cases h2 : st.keys.contains (pyStrip p.1) = true
    · refine Or.inr (Or.inl ⟨h1, h2, ?_⟩)
      unfold mergeStep
      rw [h1, h2]
      simp
    · rw [Bool.not_eq_true] at h2
      refine Or.inr (Or.inr ⟨h1, h2, ?_⟩)
      unfold mergeStep
      rw [h1, h2]
      simp

/-- `contains` distributes over list append. -/
theorem contains_append {α : Type} [BEq α] (l1 l2 : List α) (a : α) :
    (l1 ++ l2).contains a = (l1.contains a || l2.contains a) := by
  induction l1 with
  | nil => simp
  | cons x l1 ih => simp [List.contains_cons, ih, Bool.or_assoc]

/-- The key set only grows along the merge fold. -/
theorem mergeFold_keys_mono (ps : List (String × String × String)) :
    ∀ (st : MergeState) (s : String), st.keys.contains s = true →
      (ps.foldl mergeStep st).keys.contains s = true := by
  induction ps with
  | nil => intro st s h; simpa using h
  | cons q ps ih =>
      intro st s h
      simp only [List.foldl_cons]
      apply ih
      rcases mergeStep_cases st q with ⟨_, he⟩ | ⟨_, _, he⟩ | ⟨_, _, he⟩
      · rw [he]; exact h
      · rw [he]; exact h
      · rw [he]; simp only [List.contains_cons, h, Bool.or_true]

/-- After the fold, every non-skipped pair's source term is a key. -/
theorem mergeFold_processed (ps : List (String × String × String)) :
    ∀ (st : MergeState) (p : String × String × String), p ∈ ps →
      skipPair p = false →
      (ps.foldl mergeStep st).keys.contains (pyStrip p.1) = true := by
  induction ps with
  | nil => intro st p h _; simp at h
  | cons q ps ih =>
      intro st p hmem hskip
      simp only [List.foldl_cons]
      rcases List.mem_cons.mp hmem with heq | hmem'
      · subst heq
        apply mergeFold_keys_mono
        rcases mergeStep_cases st p with ⟨h1, _⟩ | ⟨_, h2, he⟩ | ⟨_, _, he⟩
        · rw [hskip] at h1; exact absurd h1 (by simp)
        · rw [he]; exact h2
        · rw [he]; simp [List.contains_cons]
      · exact ih (mergeStep st q) p hmem' hskip

/-- A fold over pairs that are all skipped or already keyed is a no-op. -/
theorem mergeFold_inert (ps : List (String × String × String)) :
    ∀ st : MergeState,
      (∀ p ∈ ps, skipPair p = true ∨ st.keys.contains (pyStrip p.1) = true) →
      ps.foldl mergeStep st = st := by
  induction ps with
  | nil => intro st _; rfl
  | cons q ps ih =>
      intro st h
      have hq := h q (by simp)
      have hstep : mergeStep st q = st := by
        rcases mergeStep_cases st q with ⟨_, he⟩ | ⟨_, _, he⟩ | ⟨hsf, hcf, _⟩
        · exact he
        · exact he
        · rcases hq with h1 | h2
          · rw [hsf] at h1; exact absurd h1 (by simp)
          · rw [hcf] at h2; exact absurd h2 (by simp)
      simp only [List.foldl_cons, hstep]
      exact ih st fun p hp => h p (by simp [hp])

/-- The key set stays in sync with the source terms of the data list. -/
theorem mergeFold_keys_sync (ps : List (String × String × String)) :
    ∀ st : MergeState,
      (∀ s, st.keys.contains s = (st.data.map fun en => en.src).contains s) →
      ∀ s, (ps.foldl mergeStep st).keys.contains s
          = ((ps.foldl mergeStep st).data.map fun en => en.src).contains s := by
  induction ps with
  | nil => intro st h s; exact h s
  | cons q ps ih =>
      intro st h s
      simp only [List.foldl_cons]
      apply ih
      intro t
      rcases mergeStep_cases st q with ⟨_, he⟩ | ⟨_, _, he⟩ | ⟨_, _, he⟩
      · rw [he]; exact h t
      · rw [he]; exact h t
      · rw [he]
        simp only [List.contains_cons, List.map_append, List.map_cons, List.map_nil,
          contains_append, h t, List.contains_nil, Bool.or_false]
        exact Bool.or_comm _ _

/-- The merge fold only appends to the data list, and the `changed` flag
records exactly whether something was appended. -/
theorem mergeFold_data_changed (ps : List (String × String × String)) :
    ∀ st : MergeState, ∃ e, (ps.foldl mergeStep st).data = st.data ++ e
      ∧ (ps.foldl mergeStep st).changed = (st.changed || !e.isEmpty) := by
  induction ps with
  | nil => intro st; exact ⟨[], by simp⟩
  | cons q ps ih =>
      intro st
      rcases mergeStep_cases st q with ⟨_, he⟩ | ⟨_, _, he⟩ | ⟨_, _, he⟩
      · simpa [he] using ih st
      · simpa [he] using ih st
      · obtain ⟨e, hd, hc⟩ := ih (mergeStep st q)
        refine ⟨⟨pyStrip q.1, pyStrip q.2.1, q.2.2⟩ :: e, ?_, ?_⟩
        · rw [List.foldl_cons, hd, he]; simp
        · rw [List.foldl_cons, hc, he]; simp

/-- The nested candidate/pair loops equal one fold over all pairs. -/
theorem foldl_mergeOne_flatMap (L : List GEntry) :
    ∀ st : MergeState,
      L.foldl mergeOne st = (L.flatMap pairsOf).foldl mergeStep st := by
  induction L with
  | nil => intro st; rfl
  | cons a L ih =>
      intro st
      rw [List.foldl_cons, ih (mergeOne st a), List.flatMap_cons, List.foldl_append]
      rfl

/-- Reduction of `merge_glossary` with both features enabled to one fold over
all candidate pairs. -/
theorem merge_glossary_enabled_eq (data glossary_list : List GEntry) (l n : ℚ) :
    merge_glossary ⟨true, true⟩ data glossary_list l n
      = (if ((glossary_list.flatMap pairsOf).foldl mergeStep
              { keys := data.map fun en => en.src, data := data, changed := false }).changed
            && decide (GLOSSARY_SAVE_INTERVAL < n - l) then
          (((glossary_list.flatMap pairsOf).foldl mergeStep
              { keys := data.map fun en => en.src, data := data, changed := false }).data,
            n, true)
        else
          (((glossary_list.flatMap pairsOf).foldl mergeStep
              { keys := data.map fun en => en.src, data := data, changed := false }).data,
            l, false)) := by
  rw [← foldl_mergeOne_flatMap]
  rfl

/-- Whatever the timing, the data component is the fold's data. -/
theorem merge_glossary_data_eq (data glossary_list : List GEntry) (l n : ℚ) :
    (merge_glossary ⟨true, true⟩ data glossary_list l n).1
      = ((glossary_list.flatMap pairsOf).foldl mergeStep
          { keys := data.map fun en => en.src, data := data, changed := false }).data := by
  rw [merge_glossary_enabled_eq]
  split <;> rfl

/-- Counterexample to claim C6: with the feature enabled, an empty glossary, a
fresh candidate, and exactly 15 seconds elapsed (`last_save_time = 0`,
`now = 15`), an entry is added (the returned glossary is non-empty) and at
least `GLOSSARY_SAVE_INTERVAL` seconds have elapsed, yet no persisted write
happens and the returned timestamp is the old `0`, not `now` — the source
gate is strict (`time.time() - last_save_time > 15`), not "at least". -/
theorem merge_glossary_boundary_counterexample :
    GLOSSARY_SAVE_INTERVAL ≤ (15 : ℚ) - 0
    ∧ (merge_glossary ⟨true, true⟩ [] [⟨"Alice", "Alya", "female"⟩] 0 15).1 ≠ []
    ∧ (merge_glossary ⟨true, true⟩ [] [⟨"Alice", "Alya", "female"⟩] 0 15).2.2 = false
    ∧ (merge_glossary ⟨true, true⟩ [] [⟨"Alice", "Alya", "female"⟩] 0 15).2.1 = 0 := by
  have hF : (([⟨"Alice", "Alya", "female"⟩] : List GEntry).flatMap pairsOf).foldl
      mergeStep
      { keys := ([] : List GEntry).map fun en => en.src, data := [], changed := false }
      = { keys := ["Alice"], data := [⟨"Alice", "Alya", "female"⟩], changed := true } := by
    decide
  have hq : ¬ (GLOSSARY_SAVE_INTERVAL < (15 : ℚ)) := by
    norm_num [GLOSSARY_SAVE_INTERVAL]
  refine ⟨by norm_num [GLOSSARY_SAVE_INTERVAL], ?_, ?_, ?_⟩ <;>
    rw [merge_glossary_enabled_eq, hF] <;> simp [hq]

/-- Claim C6 as amended: `merge_glossary` persists (and then returns `now`)
exactly when some entry was added and *strictly more* than
`GLOSSARY_SAVE_INTERVAL` seconds have elapsed; otherwise — no change, or
15 or fewer seconds elapsed, or the feature disabled — it performs no
persisted write and returns `last_save_time` unchanged.  In particular two
changed merges less than 15 seconds apart produce at most one write. -/
theorem merge_glossary_debounce (cfg : MergeCfg) (data glossary_list : List GEntry)
    (last_save_time now : ℚ) :
    ((merge_glossary cfg data glossary_list last_save_time now).2.2
        = (decide (¬ (merge_glossary cfg data glossary_list last_save_time now).1 = data)
            && decide (GLOSSARY_SAVE_INTERVAL < now - last_save_time)))
    ∧ ((merge_glossary cfg data glossary_list last_save_time now).2.1
        = if (merge_glossary cfg data glossary_list last_save_time now).2.2 = true
          then now else last_save_time) := by
  obtain ⟨ge, ae⟩ := cfg
  cases ge with
  | false => simp [merge_glossary]
  | true =>
    cases ae with
    | false => simp [merge_glossary]
    | true =>
      obtain ⟨e, hd, hc⟩ := mergeFold_data_changed (glossary_list.flatMap pairsOf)
        { keys := data.map fun en => en.src, data := data, changed := false }
      rw [merge_glossary_enabled_eq]
      cases e with
      | nil =>
          simp only [List.isEmpty_nil, Bool.not_true, Bool.or_false,
            List.append_nil] at hd hc
          simp [hd, hc]
      | cons x e' =>
          have hne : ¬ (data ++ x :: e') = data := by
            intro h
            have := congrArg List.length h
            simp at this
          simp only [List.isEmpty_cons, Bool.not_false, Bool.or_true] at hc
          by_cases hqt : GLOSSARY_SAVE_INTERVAL < now - last_save_time
          · simp [hc, hd, hqt, hne]
          · simp [hc, hd, hqt, hne]

/-- Claim C7: `merge_glossary` only appends to the stored glossary, and is
idempotent: merging the same candidate list into the result of a first
merge (at any later times) leaves the glossary unchanged, because every
surviving pair's source term is already a key after the first merge. -/
theorem merge_glossary_idempotent (cfg : MergeCfg) (data glossary_list : List GEntry)
    (l1 n1 l2 n2 : ℚ) :
    (∃ e, (merge_glossary cfg data glossary_list l1 n1).1 = data ++ e)
    ∧ (merge_glossary cfg ((merge_glossary cfg data glossary_list l1 n1).1)
        glossary_list l2 n2).1
      = (merge_glossary cfg data glossary_list l1 n1).1 := by
  obtain ⟨ge, ae⟩ := cfg
  cases ge with
  | false => exact ⟨⟨[], by simp [merge_glossary]⟩, by simp [merge_glossary]⟩
  | true =>
    cases ae with
    | false => exact ⟨⟨[], by simp [merge_glossary]⟩, by simp [merge_glossary]⟩
    | true =>
      obtain ⟨e, hd, hc⟩ := mergeFold_data_changed (glossary_list.flatMap pairsOf)
        { keys := data.map fun en => en.src, data := data, changed := false }
      have hsync := mergeFold_keys_sync (glossary_list.flatMap pairsOf)
        { keys := data.map fun en => en.src, data := data, changed := false }
        (fun s => rfl)
      refine ⟨⟨e, by rw [merge_glossary_data_eq, hd]⟩, ?_⟩
      rw [merge_glossary_data_eq, merge_glossary_data_eq]
      have h2 := mergeFold_inert (glossary_list.flatMap pairsOf)
        { keys := ((glossary_list.flatMap pairsOf).foldl mergeStep
            { keys := data.map fun en => en.src, data := data,
              changed := false }).data.map fun en => en.src,
          data := ((glossary_list.flatMap pairsOf).foldl mergeStep
            { keys := data.map fun en => en.src, data := data,
              changed := false }).data,
          changed := false }
        (by
          intro p hp
          by_cases hskip : skipPair p = true
          · exact Or.inl hskip
          · right
            rw [Bool.not_eq_true] at hskip
            rw [← hsync (pyStrip p.1)]
            exact mergeFold_processed (glossary_list.flatMap pairsOf) _ p hp hskip)
      rw [h2]

/-! ## C9: residue word extraction -/

/-- The nested per-destination loops equal one fold over all matches. -/
theorem extractFold_flatten (ms : String → List String) (dsts : List String) :
    ∀ st, dsts.foldl (fun st dst => (ms dst).foldl addWord st) st
      = (dsts.flatMap ms).foldl addWord st := by
  induction dsts with
  | nil => intro st; rfl
  | cons d ds ih =>
      intro st
      rw [List.foldl_cons, ih, List.flatMap_cons, List.foldl_append]

/-- The seen-set fold computes first-seen-order de-duplication whenever
the seen set and the accumulator hold the same words. -/
theorem addWordFold_eq_dedup (ws : List String) :
    ∀ (acc seen : List String),
      (∀ w, seen.contains w = acc.contains w) →
      (ws.foldl addWord (acc, seen)).1
        = ws.foldl (fun acc w => if acc.contains w then acc else acc ++ [w]) acc := by
  induction ws with
  | nil => intro acc seen _; rfl
  | cons w ws ih =>
      intro acc seen h
      simp only [List.foldl_cons]
      by_cases hw : seen.contains w = true
      · have hstep : addWord (acc, seen) w = (acc, seen) := by
          dsimp only [addWord]
          rw [hw]
          simp
        have hacc : acc.contains w = true := by rw [← h w]; exact hw
        rw [hstep, if_pos hacc, ih acc seen h]
      · rw [Bool.not_eq_true] at hw
        have hstep : addWord (acc, seen) w = (acc ++ [w], w :: seen) := by
          dsimp only [addWord]
          rw [hw]
          simp
        have hacc : acc.contains w = false := by rw [← h w]; exact hw
        have hinv : ∀ v, (w :: seen).contains v = (acc ++ [w]).contains v := by
          intro v
          rw [List.contains_cons, contains_append, h v, List.contains_cons,
            List.contains_nil, Bool.or_false, Bool.or_comm]
        rw [hstep, ih (acc ++ [w]) (w :: seen) hinv, hacc]
        simp

/-- `extract_residue_words` is the de-duplication of the concatenated
per-destination match lists. -/
theorem extract_residue_words_eq_dedup (src_lang : Language) (dsts : List String) :
    extract_residue_words src_lang dsts
      = dedupFirstSeen (dsts.flatMap (residueMatches src_lang)) := by
  unfold extract_residue_words dedupFirstSeen
  rw [extractFold_flatten]
  exact addWordFold_eq_dedup _ [] [] fun w => rfl

theorem flatMap_nil_fun (dsts : List String) :
    (dsts.flatMap fun _ => ([] : List String)) = [] := by
  induction dsts <;> simp [*]

/-- Counterexample to claim C9: for Japanese source the claim fails.  On the
single destination `"あカ"` (a hiragana character directly followed by a
katakana character) the code returns the two per-script runs
`["あ", "カ"]`, while the spec's described result — the maximal runs of
source-script (kana) characters in first-seen order — is the single run
`["あカ"]`. -/
theorem extract_residue_words_ja_counterexample :
    extract_residue_words Language.JA ["あカ"] = ["あ", "カ"]
    ∧ spec_residue_words Language.JA ["あカ"] = ["あカ"]
    ∧ extract_residue_words Language.JA ["あカ"]
      ≠ spec_residue_words Language.JA ["あカ"] := by decide

/-- Claim C9 as amended: for every source language other than Japanese,
`extract_residue_words` returns exactly the spec's description — the
de-duplicated, first-seen-order list of maximal runs of source-script
characters, and the empty list for languages without a script block or
for an empty destination list.  For Japanese, each destination
contributes its hiragana-only runs (in order) followed by its
katakana-only runs, de-duplicated in that order, instead of joint kana
runs in positional order. -/
theorem extract_residue_words_amended (src_lang : Language) (dsts : List String) :
    extract_residue_words src_lang dsts
      = (if src_lang = Language.JA then
          dedupFirstSeen (dsts.flatMap fun d =>
            runsStr isHiragana d ++ runsStr isKatakana d)
        else spec_residue_words src_lang dsts) := by
  rw [extract_residue_words_eq_dedup]
  cases src_lang <;> try rfl
  rw [show residueMatches Language.EN = fun _ => ([] : List String) from rfl,
    flatMap_nil_fun]
  rfl

end LinguaGacha
